import Mathlib

/-!
Verification of the simulation core of the Strategy repository: a hex-grid,
turn-based tactical game.  The combat rules (`Unit.attack`,
`Unit.is_in_movement_range`), the session state machine of
`src/nodes/gameworld.rs` (`_process`, `hex_left_clicked`,
`hex_mouse_entered`, `hex_mouse_exited`, `hex_right_clicked`,
`on_new_round`, `set_state`, `move_entity_to_hexagon`,
`handle_attack_result`) and the guarded session access of
`src/systems.rs` (`with_game_state`) are embedded as executable Lean
definitions; Rust `i32` fields are modelled as `Int` (no operation here
approaches the `i32` range), frame time (`f64`) as `ℚ`, the legion entity
store as an association list from entity ids to component records, and
Rust panics as `Except.error`.

The crate snapshot mixes two revisions: `components/unit.rs` in the
snapshot holds the older six-field `Unit` (embedded below as `V1.Unit`),
while `nodes/gameworld.rs` is written against the richer eight-field
`Unit` (with min/max attack range and an `is_in_movement_range` method)
whose module is not part of the snapshot; that canonical variant is
modelled from the spec, guided by its callers and tests in
`nodes/gameworld.rs`.
-/

namespace Strategy

/-- Modelled from the spec: axial hex coordinate `{q, r}` of
`components/hexagon.rs`, which is absent from the snapshot; equality is by
`(q, r)`. -/
structure Hexagon where
  q : Int
  r : Int
deriving DecidableEq, Repr

/-- Modelled from the spec: `Hexagon::new_axial` of the absent
`components/hexagon.rs`. -/
def Hexagon.new_axial (q r : Int) : Hexagon := ⟨q, r⟩

/-- Modelled from the spec: the axial distance
`(|a.q−b.q| + |a.r−b.r| + |(a.q+a.r)−(b.q+b.r)|) / 2` of
`Hexagon::distance_to`. -/
def Hexagon.distance_to (a b : Hexagon) : Int :=
  (|a.q - b.q| + |a.r - b.r| + |a.q + a.r - (b.q + b.r)|) / 2

/-- Modelled from the spec: `Hexagon::is_neighbour`, true iff the distance
is exactly one. -/
def Hexagon.is_neighbour (a b : Hexagon) : Bool :=
  a.distance_to b = 1

/-- Modelled from the spec: the canonical (richer) unit schema used by
`nodes/gameworld.rs`; the field set and the argument order of `Unit::new`
follow that file's calls and tests
(`Unit::new(integrity, damage, max_attack_range, min_attack_range, armor,
mobility, remaining_range, remaining_attacks)`). -/
structure Unit where
  integrity : Int
  damage : Int
  max_attack_range : Int
  min_attack_range : Int
  armor : Int
  mobility : Int
  remaining_range : Int
  remaining_attacks : Int
deriving DecidableEq, Repr

/-- Modelled from the spec: `Unit::new` of the canonical schema, absent
from the snapshot; plain constructor. -/
def Unit.new (integrity damage max_attack_range min_attack_range armor
    mobility remaining_range remaining_attacks : Int) : Unit :=
  ⟨integrity, damage, max_attack_range, min_attack_range, armor, mobility,
    remaining_range, remaining_attacks⟩

/-- Embeds `AttackError` of `components/unit.rs`. -/
inductive AttackError where
  | NoAttacksLeft
deriving DecidableEq, Repr

/-- Embeds `AttackResult` of `components/unit.rs`, over the canonical schema. -/
structure AttackResult where
  actual_damage : Int
  attacker : Unit
  defender : Unit
deriving DecidableEq, Repr

/-- Embeds `CanMove` of `components/unit.rs`. -/
inductive CanMove where
  | Yes (remaining : Int)
  | No
deriving DecidableEq, Repr

/-- Modelled from the spec: the canonical `Unit::attack`, absent from the
snapshot (only its caller, the `Attacking` branch of
`nodes/gameworld.rs::_process`, and that file's tests are present).  It
fails with `NoAttacksLeft` when `remaining_attacks ≤ 0`; otherwise the
computation mirrors the snapshot's older `V1.Unit.attack`:
`actual_damage = attacker.damage − defender.armor` (unclamped), the
defender loses `actual_damage` integrity, the attacker's mobility drops to
zero and its remaining attacks decrease by one; all other fields carry
through. -/
def Unit.attack (self defender : Unit) : Except AttackError AttackResult :=
  if self.remaining_attacks ≤ 0 then
    .error .NoAttacksLeft
  else
    let actual_damage := self.damage - defender.armor
    .ok { actual_damage := actual_damage
          attacker := { self with
            mobility := 0
            remaining_attacks := self.remaining_attacks - 1 }
          defender := { defender with
            integrity := defender.integrity - actual_damage } }

/-- Modelled from the spec: the canonical `Unit::is_in_movement_range`,
absent from the snapshot; same semantics as the snapshot's older
`V1.Unit.can_move` (`Yes(remaining_range − distance)` iff
`distance ≤ remaining_range`). -/
def Unit.is_in_movement_range (self : Unit) (distance : Int) : CanMove :=
  if self.remaining_range ≥ distance then
    .Yes (self.remaining_range - distance)
  else
    .No

namespace V1

/-- The older six-field `Unit` exactly as in the snapshot's
`components/unit.rs`. -/
structure Unit where
  integrity : Int
  damage : Int
  armor : Int
  mobility : Int
  remaining_range : Int
  remaining_attacks : Int
deriving DecidableEq, Repr

/-- Embeds `Unit::new` of `components/unit.rs`. -/
def Unit.new (integrity damage armor mobility remaining_range
    remaining_attacks : Int) : Unit :=
  ⟨integrity, damage, armor, mobility, remaining_range, remaining_attacks⟩

/-- Embeds `AttackResult` of the snapshot's `components/unit.rs`. -/
structure AttackResult where
  actual_damage : Int
  attacker : Unit
  defender : Unit
deriving DecidableEq, Repr

/-- Embeds `Unit::attack` of the snapshot's `components/unit.rs`: computes the
unclamped damage and the two updated units and always returns `Ok`; there
is no `remaining_attacks` guard in this revision. -/
def Unit.attack (self defender : Unit) : Except AttackError AttackResult :=
  let actual_damage := self.damage - defender.armor
  .ok { actual_damage := actual_damage
        attacker := { self with
          mobility := 0
          remaining_attacks := self.remaining_attacks - 1 }
        defender := { defender with
          integrity := defender.integrity - actual_damage } }

/-- Embeds `Unit::can_move` of the snapshot's `components/unit.rs`. -/
def Unit.can_move (self : Unit) (distance : Int) : CanMove :=
  if self.remaining_range ≥ distance then
    .Yes (self.remaining_range - distance)
  else
    .No

end V1

/-- One entity of the legion world, as the session core sees it: an opaque
id plus at most one each of the components the core reads
(`Unit`, `Hexagon`, `PlayerComponent(usize)`); render-only components
(`NodeComponent`, `NodeTemplate`) are outside the core per the spec. -/
structure EntityRec where
  id : Nat
  unit : Option Unit
  hexagon : Option Hexagon
  player : Option Nat
deriving DecidableEq, Repr

/-- The legion `World` restricted to the components the session core uses:
a list of entity records, looked up by id. -/
abbrev World := List EntityRec

/-- Embeds `world.entry(e)`: lookup by id, `None` for a stale id. -/
def World.entry (w : World) (e : Nat) : Option EntityRec :=
  List.find? (fun x => x.id = e) w

/-- Embeds `world.contains(e)`. -/
def World.contains (w : World) (e : Nat) : Bool :=
  List.any w (fun x => x.id = e)

/-- Embeds `entry.add_component::<Unit>`: replace the unit component of entity
`e`. -/
def World.addUnit (w : World) (e : Nat) (u : Unit) : World :=
  List.map (fun x => if x.id = e then { x with unit := some u } else x) w

/-- Embeds `entry.add_component::<Hexagon>`: replace the position component of
entity `e`. -/
def World.addHexagon (w : World) (e : Nat) (h : Hexagon) : World :=
  List.map (fun x => if x.id = e then { x with hexagon := some h } else x) w

/-- Embeds `world.remove(e)`: delete the entity. -/
def World.remove (w : World) (e : Nat) : World :=
  List.filter (fun x => x.id ≠ e) w

/-- The unit component of entity `e`, when the entity exists and has
one. -/
def World.getUnit (w : World) (e : Nat) : Option Unit :=
  (w.entry e).bind (fun x => x.unit)

/-- The position component of entity `e`. -/
def World.getHexagon (w : World) (e : Nat) : Option Hexagon :=
  (w.entry e).bind (fun x => x.hexagon)

/-- Embeds `get_entities_at_hexagon` of `systems/hexgrid.rs`: ids of all entities
whose hexagon component equals the given coordinate (semantics as in the
snapshot's older `gameworld.rs::get_entities_at_hexagon`). -/
def get_entities_at_hexagon (h : Hexagon) (w : World) : List Nat :=
  List.map (fun x => x.id) (List.filter (fun x => x.hexagon = some h) w)

/-- Modelled from the spec: the six axial neighbour offsets of a hex
cell, for the absent pathfinder module. -/
def Hexagon.neighbours (h : Hexagon) : List Hexagon :=
  [⟨h.q + 1, h.r⟩, ⟨h.q + 1, h.r - 1⟩, ⟨h.q, h.r - 1⟩,
   ⟨h.q - 1, h.r⟩, ⟨h.q - 1, h.r + 1⟩, ⟨h.q, h.r + 1⟩]

/-- Modelled from the spec: membership in the radius-4 hexagonal field
(`generate_field(radius)`: all `(q, r)` with `|q| ≤ radius`,
`|r| ≤ radius`, `|q+r| ≤ radius`; the session builds its grid with radius
4). -/
def inField (h : Hexagon) : Bool :=
  h.q.natAbs ≤ 4 && h.r.natAbs ≤ 4 && (h.q + h.r).natAbs ≤ 4

/-- Modelled from the spec: a cell is blocked when some unit-bearing
entity stands on it. -/
def isBlocked (w : World) (h : Hexagon) : Bool :=
  List.any w (fun x => x.hexagon = some h && x.unit.isSome)

/-- Modelled from the spec: breadth-first search worklist for
`find_path`; each queue element is a frontier cell with the reversed
path that reached it. -/
def bfsAux (dst : Hexagon) (w : World) :
    Nat → List (Hexagon × List Hexagon) → List Hexagon → List Hexagon
  | 0, _, _ => []
  | _ + 1, [], _ => []
  | fuel + 1, (cur, pathRev) :: queue, visited =>
    if cur = dst then pathRev.reverse
    else
      let next := (cur.neighbours).filter
        (fun n => inField n && !(decide (n ∈ visited)) &&
          (decide (n = dst) || !isBlocked w n))
      bfsAux dst w fuel (queue ++ next.map (fun n => (n, n :: pathRev)))
        (visited ++ next)

/-- Modelled from the spec: `find_path` of the absent
`systems/hexgrid.rs` — breadth-first search over the six-neighbour graph
restricted to field cells not blocked by a unit-bearing entity (the
destination exempt from the occupancy check); the result excludes the
start, includes the destination, and is empty when start equals
destination or no route exists. -/
def find_path (src dst : Hexagon) (w : World) : List Hexagon :=
  if src = dst then [] else bfsAux dst w 128 [(src, [])] [src]

/-- Modelled from the spec: a roster entry of the absent `player.rs`; the
display colour plays no role in the core and is omitted. -/
structure Player where
  name : String
deriving DecidableEq, Repr

/-- Modelled from the spec: `Player::new` of the absent `player.rs`,
without the colour argument. -/
def Player.new (name : String) : Player := ⟨name⟩

/-- Modelled from the spec: `State` of the absent `game_state.rs`, with the four variants
`nodes/gameworld.rs` matches on; `Moving` carries the entity, the queued
path and the accumulated frame time. -/
inductive State where
  | Waiting
  | Selected (e : Nat)
  | Moving (e : Nat) (path : List Hexagon) (t : ℚ)
  | Attacking (attacker defender : Nat)
deriving DecidableEq, Repr

/-- Modelled from the spec: `GameState` of the absent `game_state.rs`, restricted to the fields
the session core reads and writes (`world`, `state`, `current_player`,
`players`, `current_path`, `redraw_grid`); the render-layer toggles and
`hexfield_size` do not interact with the claims' operations. -/
structure GameState where
  world : World
  state : State
  current_player : Option Nat
  players : List Player
  current_path : List Hexagon
  redraw_grid : Bool
deriving DecidableEq, Repr

/-- Embeds `GameWorld::set_state`: store the new machine state, clear the hover
path, flag the grid for redraw. -/
def set_state (s : GameState) (game_state : State) : GameState :=
  { s with state := game_state, current_path := [], redraw_grid := true }

/-- Embeds `with_game_state` of `systems.rs`: a non-blocking `try_lock` on the
global session mutex; the body runs only when the lock is acquired, and a
contended call silently does nothing (the `Result` of `try_lock().map(..)`
is discarded).  The lock outcome is an explicit boolean input here. -/
def with_game_state (acquired : Bool) (f : GameState → GameState)
    (s : GameState) : GameState :=
  if acquired then f s else s

/-- Embeds `GameWorld::handle_attack_result`: write the attacker's updated unit
back (when the attacker still exists), then remove the defender when its
resulting integrity is ≤ 0 and otherwise write its updated unit back. -/
def handle_attack_result (w : World) (attacker defender : Nat)
    (result : AttackResult) : World :=
  let w1 := match w.entry attacker with
    | none => w
    | some _ => w.addUnit attacker result.attacker
  match w1.entry defender with
  | none => w1
  | some _ =>
    if result.defender.integrity ≤ 0 then
      w1.remove defender
    else
      w1.addUnit defender result.defender

/-- Embeds `SECONDS_PER_MOVEMENT` of `nodes/gameworld.rs` (0.1 seconds per
movement step), with frame time modelled as `ℚ`. -/
def SECONDS_PER_MOVEMENT : ℚ := 1 / 10

/-- Embeds `GameWorld::move_entity_to_hexagon`: when the entity exists, its unit
passes the movement-range check for the hex distance to the target cell,
in which case the unit (with reduced `remaining_range`) and the position
are written back; a missing entity is a logged no-op, while the `unwrap`
on a missing `Unit` or `Hexagon` component is a panic, modelled as
`Except.error`. -/
def move_entity_to_hexagon (entity : Nat) (hexagon : Hexagon) (w : World) :
    Except String World :=
  match w.entry entity with
  | none => .ok w
  | some entry =>
    match entry.unit, entry.hexagon with
    | some selected_unit, some selected_hexagon =>
      let distance := selected_hexagon.distance_to hexagon
      match selected_unit.is_in_movement_range distance with
      | .Yes remaining_range =>
        let updated_hexagon := Hexagon.new_axial hexagon.q hexagon.r
        let updated_selected_unit := Unit.new selected_unit.integrity
          selected_unit.damage selected_unit.max_attack_range
          selected_unit.min_attack_range selected_unit.armor
          selected_unit.mobility remaining_range
          selected_unit.remaining_attacks
        .ok ((w.addUnit entity updated_selected_unit).addHexagon entity
          updated_hexagon)
      | .No => .ok w
    | _, _ => .error "MOVING: unwrap on missing Unit or Hexagon component"

/-- The `while total_time > SECONDS_PER_MOVEMENT` loop of the `Moving`
branch of `GameWorld::_process`: per iteration, abort to `Waiting` when
the entity or its unit component is gone, stop at `Selected` when the
movement range is exhausted, the path is unexpectedly empty or the next
cell is not adjacent, and otherwise apply one movement step and consume
one tick; when the loop ends, re-enter `Moving` with the remaining path or
`Selected` when it is spent. -/
def movingLoop (entity : Nat) (path : List Hexagon) (total_time : ℚ)
    (s : GameState) : Except String GameState :=
  if total_time > SECONDS_PER_MOVEMENT then
    match s.world.entry entity with
    | none => .ok (set_state s .Waiting)
    | some entry =>
      match entry.unit with
      | none => .ok (set_state s .Waiting)
      | some unit =>
        if unit.remaining_range ≤ 0 then
          .ok (set_state s (.Selected entity))
        else
          match entry.hexagon with
          | none => .ok (set_state s .Waiting)
          | some hexagon =>
            match path with
            | [] => .ok (set_state s (.Selected entity))
            | next_hexagon :: rest =>
              if !hexagon.is_neighbour next_hexagon then
                .ok (set_state s (.Selected entity))
              else
                match move_entity_to_hexagon entity next_hexagon s.world with
                | .error m => .error m
                | .ok w =>
                  movingLoop entity rest (total_time - SECONDS_PER_MOVEMENT)
                    { s with world := w }
  else
    if path ≠ [] then
      .ok (set_state s (.Moving entity path total_time))
    else
      .ok (set_state s (.Selected entity))

/-- The state-machine portion of `GameWorld::_process` (the
`with_game_state` block dispatching on the current state): the `Attacking`
branch resolves the queued combat and always ends in `Waiting`; the
`Moving` branch accumulates the frame delta and runs the movement loop;
other states are untouched. -/
def process (delta : ℚ) (s : GameState) : Except String GameState :=
  match s.state with
  | .Attacking attacker_entity defender_entity =>
    match s.world.entry attacker_entity with
    | none => .ok (set_state s .Waiting)
    | some attacker_entry =>
      match attacker_entry.unit with
      | none => .ok (set_state s .Waiting)
      | some attacking_unit =>
        match s.world.entry defender_entity with
        | none => .ok (set_state s .Waiting)
        | some defender_entry =>
          match defender_entry.unit with
          | none => .ok (set_state s .Waiting)
          | some defending_unit =>
            match attacking_unit.attack defending_unit with
            | .ok result =>
              let w := handle_attack_result s.world attacker_entity
                defender_entity result
              .ok (set_state { s with world := w } .Waiting)
            | .error _ => .ok (set_state s .Waiting)
  | .Moving entity path total_time =>
    movingLoop entity path (total_time + delta) s
  | _ => .ok s

/-- Embeds `GameWorld::hex_mouse_exited`: clear the hover path. -/
def hex_mouse_exited (s : GameState) : GameState :=
  { s with current_path := [] }

/-- Embeds `GameWorld::hex_mouse_entered` with the already-translated hovered
axial coordinate: in `Selected` state, when the selected entity resolves,
a current player is set, the selected unit belongs to that player and has
a position, recompute the hover path via the pathfinder; in the error
cases return leaving the hover path as it was; in every other state clear
the hover path. -/
def hex_mouse_entered (q r : Int) (s : GameState) : GameState :=
  let mouse_hexagon := Hexagon.new_axial q r
  match s.state with
  | .Selected selected_entity =>
    match s.world.entry selected_entity with
    | none => s
    | some selected_entry =>
      match s.current_player with
      | none => s
      | some current_player_index =>
        match selected_entry.player with
        | none => s
        | some selected_player_index =>
          if current_player_index ≠ selected_player_index then s
          else
            match selected_entry.hexagon with
            | none => s
            | some selected_hexagon =>
              { s with current_path :=
                  find_path selected_hexagon mouse_hexagon s.world }
  | _ => { s with current_path := [] }

/-- Embeds `GameWorld::hex_right_clicked` (and the right-button branch of
`_unhandled_input`): the explicit cancel, forcing `Waiting`. -/
def hex_right_clicked (s : GameState) : GameState :=
  set_state s .Waiting

/-- Exit of the entity loop of `hex_left_clicked`: either the loop ran to
completion with the accumulated candidate states, or an ownership check
caused an early `return` from the whole handler. -/
inductive ClickLoopExit where
  | finished (possible_states : List State)
  | earlyReturn
deriving DecidableEq, Repr

/-- The `for entity in entities_at_hexagon` loop of
`GameWorld::hex_left_clicked`: each clicked entity first contributes a
`Selected` candidate; when the session is in `Selected` state with a still
existing, different entity, a clicked unit yields an `Attacking` candidate
when the ownership check passes and the target is visible, while a clicked
non-unit yields a `Moving` candidate when the pathfinder returns a route;
ownership mismatches return early and the `panic!` calls on a missing
current player or player assignment, and the unwraps, are
`Except.error`. -/
def clickLoop (s : GameState) (clicked_hexagon : Hexagon)
    (is_visible : Bool) :
    List Nat → List State → Except String ClickLoopExit
  | [], possible_states => .ok (.finished possible_states)
  | entity :: rest, possible_states =>
    let possible_states := possible_states ++ [State.Selected entity]
    match s.state with
    | .Selected selected_entity =>
      if s.world.contains selected_entity then
        if selected_entity = entity then
          clickLoop s clicked_hexagon is_visible rest possible_states
        else
          match s.world.entry entity with
          | none => .error "unwrap: clicked entity entry"
          | some clicked_entry =>
            let clicked_unit := clicked_entry.unit
            match s.current_player with
            | none => .error "State has no active player."
            | some current_player_id =>
              match s.world.entry selected_entity with
              | none => .error "unwrap: selected entity entry"
              | some selected_entry =>
                match selected_entry.player with
                | none => .error "Selected unit has no assigned player"
                | some selected_player_id =>
                  match clicked_unit with
                  | some _ =>
                    if current_player_id ≠ selected_player_id then
                      .ok .earlyReturn
                    else if is_visible then
                      clickLoop s clicked_hexagon is_visible rest
                        (possible_states ++
                          [State.Attacking selected_entity entity])
                    else
                      clickLoop s clicked_hexagon is_visible rest
                        possible_states
                  | none =>
                    if current_player_id ≠ selected_player_id then
                      .ok .earlyReturn
                    else
                      match selected_entry.hexagon with
                      | none =>
                        .error "Selected entity has no hexagon component."
                      | some selected_hexagon =>
                        let path := find_path selected_hexagon
                          clicked_hexagon s.world
                        if path = [] then
                          clickLoop s clicked_hexagon is_visible rest
                            possible_states
                        else
                          clickLoop s clicked_hexagon is_visible rest
                            (possible_states ++
                              [State.Moving selected_entity path 0])
      else
        clickLoop s clicked_hexagon is_visible rest possible_states
    | _ => clickLoop s clicked_hexagon is_visible rest possible_states

/-- The final `match possible_states.last()` of `hex_left_clicked`: adopt
the last candidate state, or force `Waiting` when there is none. -/
def adopt_last_state (s : GameState) (possible_states : List State) :
    GameState :=
  match possible_states.getLast? with
  | some last_state => set_state s last_state
  | none => set_state s .Waiting

/-- Embeds `GameWorld::hex_left_clicked` with the already-translated clicked
axial coordinate; `is_visible` stands for the render collaborator's
line-of-sight answer (`HexGrid::is_hexagon_visible_for_attack`, constant
within one call, `false` when no 2D world is attached).  A click on an
empty cell while a unit is selected computes a movement path (the `unwrap`
on a stale selected entity and the `panic!` calls being `Except.error`,
and an ownership mismatch an early return); a click on an occupied cell
runs the entity loop; finally the last candidate state (or `Waiting`) is
adopted. -/
def hex_left_clicked (q r : Int) (is_visible : Bool) (s : GameState) :
    Except String GameState :=
  let clicked_hexagon := Hexagon.new_axial q r
  let entities_at_hexagon := get_entities_at_hexagon clicked_hexagon s.world
  if entities_at_hexagon = [] then
    match s.state with
    | .Selected selected_entity =>
      match s.world.entry selected_entity with
      | none => .error "unwrap: selected entity entry"
      | some selected_entry =>
        match s.current_player with
        | none => .error "State has no active player."
        | some current_player_id =>
          match selected_entry.player with
          | none => .error "Selected unit has no assigned player"
          | some selected_player_id =>
            if current_player_id ≠ selected_player_id then .ok s
            else
              match selected_entry.hexagon with
              | none => .error "Selected entity has no hexagon component."
              | some selected_hexagon =>
                let path := find_path selected_hexagon clicked_hexagon
                  s.world
                if path = [] then
                  .ok (adopt_last_state s [])
                else
                  .ok (adopt_last_state s
                    [State.Moving selected_entity path 0])
    | _ => .ok (adopt_last_state s [])
  else
    match clickLoop s clicked_hexagon is_visible entities_at_hexagon [] with
    | .error m => .error m
    | .ok .earlyReturn => .ok s
    | .ok (.finished possible_states) =>
      .ok (adopt_last_state s possible_states)

/-- Embeds `GameWorld::on_new_round`: reset every unit's `remaining_attacks` to 1
and `remaining_range` to its mobility, advance the current player
(wrapping past the roster length, starting at 0 when unset), and force
`Waiting`. -/
def on_new_round (s : GameState) : GameState :=
  let world := List.map
    (fun x =>
      match x.unit with
      | none => x
      | some u => { x with unit := some { u with
          remaining_attacks := 1
          remaining_range := u.mobility } })
    s.world
  let next_player : Nat :=
    match s.current_player with
    | none => 0
    | some player =>
      if player + 1 ≥ s.players.length then 0 else player + 1
  set_state { s with world := world, current_player := some next_player }
    .Waiting

/-- The initial deployment of `GameWorld::_ready`: two players and four
units (entity ids 0–3) on their starting cells, player 0 to move, the
machine `Waiting` with an empty hover path. -/
def initialState : GameState :=
  { world :=
      [⟨0, some (Unit.new 20 5 2 1 3 5 5 1), some (Hexagon.new_axial 2 0),
          some 0⟩,
       ⟨1, some (Unit.new 10 10 4 2 1 2 2 1), some (Hexagon.new_axial 2 1),
          some 0⟩,
       ⟨2, some (Unit.new 20 5 2 1 3 5 5 1), some (Hexagon.new_axial (-2) 0),
          some 1⟩,
       ⟨3, some (Unit.new 10 10 4 2 1 2 2 1),
          some (Hexagon.new_axial (-2) (-1)), some 1⟩]
    state := .Waiting
    current_player := some 0
    players := [Player.new "Player 1", Player.new "Player 2"]
    current_path := []
    redraw_grid := false }

/-- The session states reachable from the initial deployment by the
externally triggered operations (frame ticks with any delta, left and
right clicks with any coordinate and visibility answer, hover events,
round rollover); a panicking left click produces no successor. -/
inductive Reachable : GameState → Prop where
  | init : Reachable initialState
  | proc (delta : ℚ) (s s' : GameState) : Reachable s →
      process delta s = .ok s' → Reachable s'
  | leftClick (q r : Int) (is_visible : Bool) (s s' : GameState) :
      Reachable s → hex_left_clicked q r is_visible s = .ok s' →
      Reachable s'
  | rightClick (s : GameState) : Reachable s →
      Reachable (hex_right_clicked s)
  | mouseEntered (q r : Int) (s : GameState) : Reachable s →
      Reachable (hex_mouse_entered q r s)
  | mouseExited (s : GameState) : Reachable s →
      Reachable (hex_mouse_exited s)
  | newRound (s : GameState) : Reachable s → Reachable (on_new_round s)

/-- The spec invariant `remaining_attacks ∈ {0, 1, …}` over a world. -/
def attacksNonneg (w : World) : Prop :=
  ∀ x ∈ w, ∀ u, x.unit = some u → 0 ≤ u.remaining_attacks

theorem getUnit_mem {w : World} {e : Nat} {u : Unit}
    (h : w.getUnit e = some u) : ∃ x ∈ w, x.unit = some u := by
  unfold World.getUnit World.entry at h
  cases hf : List.find? (fun x => x.id = e) w with
  | none => rw [hf] at h; simp at h
  | some x =>
    rw [hf] at h
    exact ⟨x, List.mem_of_find?_eq_some hf, h⟩

theorem attacksNonneg_getUnit {w : World} {e : Nat} {u : Unit}
    (hw : attacksNonneg w) (h : w.getUnit e = some u) :
    0 ≤ u.remaining_attacks := by
  obtain ⟨x, hx, hu⟩ := getUnit_mem h
  exact hw x hx u hu

theorem attacksNonneg_addUnit {w : World} {e : Nat} {u : Unit}
    (hw : attacksNonneg w) (hu : 0 ≤ u.remaining_attacks) :
    attacksNonneg (w.addUnit e u) := by
  intro x hx v hv
  unfold World.addUnit at hx
  obtain ⟨y, hy, hxy⟩ := List.mem_map.mp hx
  by_cases hid : y.id = e
  · rw [if_pos hid] at hxy
    subst hxy
    simp only at hv
    cases hv
    exact hu
  · rw [if_neg hid] at hxy
    subst hxy
    exact hw y hy v hv

theorem attacksNonneg_addHexagon {w : World} {e : Nat} {h : Hexagon}
    (hw : attacksNonneg w) : attacksNonneg (w.addHexagon e h) := by
  intro x hx v hv
  unfold World.addHexagon at hx
  obtain ⟨y, hy, hxy⟩ := List.mem_map.mp hx
  by_cases hid : y.id = e
  · rw [if_pos hid] at hxy
    subst hxy
    exact hw y hy v hv
  · rw [if_neg hid] at hxy
    subst hxy
    exact hw y hy v hv

theorem attacksNonneg_remove {w : World} {e : Nat}
    (hw : attacksNonneg w) : attacksNonneg (w.remove e) := by
  intro x hx v hv
  exact hw x (List.mem_of_mem_filter hx) v hv

/-- Characterization of a successful canonical attack: the guard passed
and the result fields are exactly the combat formula. -/
theorem attack_ok {a d : Unit} {r : AttackResult}
    (h : a.attack d = .ok r) :
    0 < a.remaining_attacks ∧
    r.actual_damage = a.damage - d.armor ∧
    r.attacker = { a with
      mobility := 0, remaining_attacks := a.remaining_attacks - 1 } ∧
    r.defender = { d with
      integrity := d.integrity - (a.damage - d.armor) } := by
  unfold Unit.attack at h
  split at h
  · exact absurd h (by simp)
  · next hguard =>
    refine ⟨by omega, ?_, ?_, ?_⟩ <;>
      simp only [Except.ok.injEq] at h <;> rw [← h]

/-- A failed canonical attack is exactly the `NoAttacksLeft` guard. -/
theorem attack_error {a d : Unit}
    (h : a.remaining_attacks ≤ 0) :
    a.attack d = .error .NoAttacksLeft := by
  unfold Unit.attack
  rw [if_pos h]

theorem attacksNonneg_handle_attack_result {w : World} {a d : Nat}
    {au du : Unit} {r : AttackResult}
    (hw : attacksNonneg w) (_hau : w.getUnit a = some au)
    (hdu : w.getUnit d = some du) (hr : au.attack du = .ok r) :
    attacksNonneg (handle_attack_result w a d r) := by

  obtain ⟨hguard, _, hatt, hdef⟩ := attack_ok hr
  have hdu0 : 0 ≤ du.remaining_attacks := attacksNonneg_getUnit hw hdu
  have hatt0 : 0 ≤ r.attacker.remaining_attacks := by
    rw [hatt]; simp; omega
  have hdef0 : 0 ≤ r.defender.remaining_attacks := by
    rw [hdef]; simpa using hdu0
  unfold handle_attack_result
  cases w.entry a with
  | none =>
    simp only
    cases w.entry d with
    | none => exact hw
    | some _ =>
      simp only
      split
      · exact attacksNonneg_remove hw
      · exact attacksNonneg_addUnit hw hdef0
  | some _ =>
    simp only
    have hw1 := attacksNonneg_addUnit (e := a) hw hatt0
    cases (w.addUnit a r.attacker).entry d with
    | none => exact hw1
    | some _ =>
      simp only
      split
      · exact attacksNonneg_remove hw1
      · exact attacksNonneg_addUnit hw1 hdef0

theorem entry_mem {w : World} {e : Nat} {x : EntityRec}
    (h : w.entry e = some x) : x ∈ w :=
  List.mem_of_find?_eq_some h

theorem move_entity_to_hexagon_attacksNonneg {e : Nat} {hex : Hexagon}
    {w w' : World} (h : move_entity_to_hexagon e hex w = .ok w')
    (hw : attacksNonneg w) : attacksNonneg w' := by
  unfold move_entity_to_hexagon at h
  split at h
  · simp only [Except.ok.injEq] at h; rw [← h]; exact hw
  · rename_i entry he
    split at h
    · rename_i selected_unit selected_hexagon hu hh
      simp only at h
      split at h
      · rename_i remaining hc
        simp only [Except.ok.injEq] at h
        rw [← h]
        have h0 : 0 ≤ selected_unit.remaining_attacks :=
          hw entry (entry_mem he) selected_unit hu
        exact attacksNonneg_addHexagon
          (attacksNonneg_addUnit hw (by simpa [Unit.new] using h0))
      · simp only [Except.ok.injEq] at h
        rw [← h]; exact hw
    · simp at h

theorem move_entity_to_hexagon_ok {e : Nat} {hex : Hexagon} {w : World}
    {entry : EntityRec} {u : Unit} {hx : Hexagon}
    (he : w.entry e = some entry) (hu : entry.unit = some u)
    (hh : entry.hexagon = some hx) :
    ∃ w', move_entity_to_hexagon e hex w = .ok w' := by
  unfold move_entity_to_hexagon
  split
  · exact ⟨_, rfl⟩
  · rename_i entry2 he2
    rw [he] at he2
    cases he2
    split
    · rename_i su sh hsu hsh
      cases hcm : su.is_in_movement_range (sh.distance_to hex)
      · simp only [hcm]
        exact ⟨_, rfl⟩
      · simp only [hcm]
        exact ⟨_, rfl⟩
    · rename_i hcatch
      exact (hcatch u hx hu hh).elim

/-- Combined analysis of one run of the movement loop: it never panics,
the world stays `attacksNonneg`, the result went through `set_state` (so
the hover path is cleared and the redraw flag set), and the resulting
machine state is `Waiting`, `Selected` of the moving entity, or `Moving`
of the same entity. -/
theorem movingLoop_ok {entity : Nat} :
    ∀ (path : List Hexagon) (t : ℚ) (s : GameState),
    ∃ s', movingLoop entity path t s = .ok s' ∧
      (attacksNonneg s.world → attacksNonneg s'.world) ∧
      s'.current_path = [] ∧ s'.redraw_grid = true ∧
      (s'.state = .Waiting ∨ s'.state = .Selected entity ∨
        ∃ p t2, s'.state = .Moving entity p t2) := by
  intro path
  induction path with
  | nil =>
    intro t s
    rw [movingLoop]
    split
    · split
      · exact ⟨_, rfl, fun h => h, rfl, rfl, Or.inl rfl⟩
      · split
        · exact ⟨_, rfl, fun h => h, rfl, rfl, Or.inl rfl⟩
        · split
          · exact ⟨_, rfl, fun h => h, rfl, rfl, Or.inr (Or.inl rfl)⟩
          · split
            · exact ⟨_, rfl, fun h => h, rfl, rfl, Or.inl rfl⟩
            · exact ⟨_, rfl, fun h => h, rfl, rfl, Or.inr (Or.inl rfl)⟩
    · simp only [ne_eq, not_true_eq_false, if_false]
      exact ⟨_, rfl, fun h => h, rfl, rfl, Or.inr (Or.inl rfl)⟩
  | cons next_hexagon rest ih =>
    intro t s
    rw [movingLoop]
    split
    · split
      · exact ⟨_, rfl, fun h => h, rfl, rfl, Or.inl rfl⟩
      · rename_i entry he
        split
        · exact ⟨_, rfl, fun h => h, rfl, rfl, Or.inl rfl⟩
        · rename_i unit hu
          split
          · exact ⟨_, rfl, fun h => h, rfl, rfl, Or.inr (Or.inl rfl)⟩
          · split
            · exact ⟨_, rfl, fun h => h, rfl, rfl, Or.inl rfl⟩
            · rename_i hexagon hh
              split
              · exact ⟨_, rfl, fun h => h, rfl, rfl, Or.inr (Or.inl rfl)⟩
              · rename_i nh2 rest2 meq
                injection meq with meq1 meq2
                subst meq1
                subst meq2
                split
                · exact ⟨_, rfl, fun h => h, rfl, rfl, Or.inr (Or.inl rfl)⟩
                · split
                  · rename_i m hm
                    obtain ⟨w', hw'⟩ :=
                      @move_entity_to_hexagon_ok _ next_hexagon _ _ _ _ he hu hh
                    rw [hw'] at hm
                    cases hm
                  · rename_i w' hw'
                    obtain ⟨s', hs', hinv, hpath, hredraw, hstate⟩ :=
                      ih (t - SECONDS_PER_MOVEMENT) { s with world := w' }
                    refine ⟨s', hs', ?_, hpath, hredraw, hstate⟩
                    intro hw
                    have hw2 := move_entity_to_hexagon_attacksNonneg hw' hw
                    exact hinv hw2
    · simp only [ne_eq, reduceCtorEq, not_false_eq_true, if_true]
      exact ⟨_, rfl, fun h => h, rfl, rfl, Or.inr (Or.inr ⟨_, _, rfl⟩)⟩

theorem getUnit_of_entry {w : World} {e : Nat} {x : EntityRec} {u : Unit}
    (he : w.entry e = some x) (hu : x.unit = some u) :
    w.getUnit e = some u := by
  unfold World.getUnit
  rw [he]
  exact hu

/-- Combined analysis of one frame of the state machine: it never panics,
it preserves the `remaining_attacks` invariant, and it either leaves the
session untouched or went through `set_state`. -/
theorem process_ok (delta : ℚ) (s : GameState) :
    ∃ s', process delta s = .ok s' ∧
      (attacksNonneg s.world → attacksNonneg s'.world) ∧
      (s' = s ∨ (s'.current_path = [] ∧ s'.redraw_grid = true)) := by
  unfold process
  split
  · rename_i a d hst
    split
    · exact ⟨_, rfl, fun h => h, Or.inr ⟨rfl, rfl⟩⟩
    · rename_i attacker_entry he
      split
      · exact ⟨_, rfl, fun h => h, Or.inr ⟨rfl, rfl⟩⟩
      · rename_i au hau
        split
        · exact ⟨_, rfl, fun h => h, Or.inr ⟨rfl, rfl⟩⟩
        · rename_i defender_entry hd
          split
          · exact ⟨_, rfl, fun h => h, Or.inr ⟨rfl, rfl⟩⟩
          · rename_i du hdu
            split
            · rename_i r hr
              refine ⟨_, rfl, ?_, Or.inr ⟨rfl, rfl⟩⟩
              intro hw
              exact attacksNonneg_handle_attack_result hw
                (getUnit_of_entry he hau) (getUnit_of_entry hd hdu) hr
            · exact ⟨_, rfl, fun h => h, Or.inr ⟨rfl, rfl⟩⟩
  · rename_i e path t hst
    obtain ⟨s', hs', hinv, hpath, hredraw, _⟩ := movingLoop_ok path (t + delta) s
    exact ⟨s', hs', hinv, Or.inr ⟨hpath, hredraw⟩⟩
  · exact ⟨_, rfl, fun h => h, Or.inl rfl⟩

theorem adopt_last_state_shape (s : GameState) (l : List State) :
    (adopt_last_state s l).world = s.world ∧
    (adopt_last_state s l).current_path = [] ∧
    (adopt_last_state s l).redraw_grid = true := by
  unfold adopt_last_state
  split
  · exact ⟨rfl, rfl, rfl⟩
  · exact ⟨rfl, rfl, rfl⟩

/-- Shape of a non-panicking left click: the world is untouched and the
session either came out of `set_state` or (on an early ownership return)
is unchanged. -/
theorem hex_left_clicked_ok_shape {q r : Int} {is_visible : Bool}
    {s s' : GameState}
    (h : hex_left_clicked q r is_visible s = .ok s') :
    s'.world = s.world ∧
    (s' = s ∨ (s'.current_path = [] ∧ s'.redraw_grid = true)) := by
  unfold hex_left_clicked at h
  by_cases hemp : get_entities_at_hexagon (Hexagon.new_axial q r) s.world = []
  · simp only [hemp, if_true] at h
    repeat' split at h
    all_goals
      first
      | exact Except.noConfusion h
      | (simp only [Except.ok.injEq] at h
         subst h
         first
         | exact ⟨rfl, Or.inl rfl⟩
         | exact ⟨(adopt_last_state_shape _ _).1,
             Or.inr ⟨(adopt_last_state_shape _ _).2.1,
               (adopt_last_state_shape _ _).2.2⟩⟩)
  · rw [if_neg hemp] at h
    repeat' split at h
    all_goals
      first
      | exact Except.noConfusion h
      | (simp only [Except.ok.injEq] at h
         subst h
         first
         | exact ⟨rfl, Or.inl rfl⟩
         | exact ⟨(adopt_last_state_shape _ _).1,
             Or.inr ⟨(adopt_last_state_shape _ _).2.1,
               (adopt_last_state_shape _ _).2.2⟩⟩)

/-- A hover event only ever rewrites the hover path. -/
theorem hex_mouse_entered_shape (q r : Int) (s : GameState) :
    ∃ cp, hex_mouse_entered q r s = { s with current_path := cp } := by
  unfold hex_mouse_entered
  split
  · split
    · exact ⟨s.current_path, rfl⟩
    · split
      · exact ⟨s.current_path, rfl⟩
      · split
        · exact ⟨s.current_path, rfl⟩
        · split
          · exact ⟨s.current_path, rfl⟩
          · split
            · exact ⟨s.current_path, rfl⟩
            · exact ⟨_, rfl⟩
  · exact ⟨[], rfl⟩

theorem on_new_round_attacksNonneg (s : GameState) :
    attacksNonneg (on_new_round s).world := by
  intro x hx u hu
  unfold on_new_round at hx
  simp only [set_state] at hx
  obtain ⟨y, _, hxy⟩ := List.mem_map.mp hx
  cases hy : y.unit with
  | none =>
    rw [hy] at hxy
    rw [← hxy] at hu
    rw [hy] at hu
    cases hu
  | some u0 =>
    rw [hy] at hxy
    rw [← hxy] at hu
    simp only [Option.some.injEq] at hu
    rw [← hu]
    norm_num

/-- The spec invariant `remaining_attacks ∈ {0, 1, …}` holds in every
reachable session state. -/
theorem reachable_attacksNonneg {s : GameState} (h : Reachable s) :
    attacksNonneg s.world := by
  induction h with
  | init =>
    intro x hx u hu
    simp only [initialState, List.mem_cons, List.not_mem_nil, or_false]
      at hx
    rcases hx with rfl | rfl | rfl | rfl <;>
      (simp only [Unit.new, Option.some.injEq] at hu; rw [← hu]; decide)
  | proc delta s s' _ heq ih =>
    obtain ⟨s'', hs'', hinv, _⟩ := process_ok delta s
    rw [heq] at hs''
    injection hs'' with hs''
    rw [hs'']
    exact hinv ih
  | leftClick q r is_visible s s' _ heq ih =>
    obtain ⟨hworld, _⟩ := hex_left_clicked_ok_shape heq
    rw [hworld]
    exact ih
  | rightClick s _ ih => exact ih
  | mouseEntered q r s _ ih =>
    obtain ⟨cp, hcp⟩ := hex_mouse_entered_shape q r s
    rw [hcp]
    exact ih
  | mouseExited s _ ih => exact ih
  | newRound s _ _ => exact on_new_round_attacksNonneg s

/-- C1: with `attacker.remaining_attacks ≤ 0`, `attack` returns the
`NoAttacksLeft` error, and an `Attacking` tick whose attacker has that
unit leaves the world untouched (no unit component modified, no entity
removed): the frame just logs and resets the machine to `Waiting`. -/
theorem claim_C1 (attacker defender : Unit)
    (h : attacker.remaining_attacks ≤ 0) :
    attacker.attack defender = .error .NoAttacksLeft ∧
    ∀ (s : GameState) (a d : Nat) (delta : ℚ),
      s.state = .Attacking a d → s.world.getUnit a = some attacker →
      process delta s = .ok (set_state s .Waiting) ∧
      (set_state s .Waiting).world = s.world := by
  refine ⟨attack_error h, ?_⟩
  intro s a d delta hstate hget
  refine ⟨?_, rfl⟩
  cases he : s.world.entry a with
  | none =>
    unfold World.getUnit at hget
    rw [he] at hget
    simp at hget
  | some ae =>
    have hu : ae.unit = some attacker := by
      unfold World.getUnit at hget
      rw [he] at hget
      exact hget
    unfold process
    simp only [hstate, he, hu]
    cases hd : s.world.entry d with
    | none => simp only [hd]
    | some de =>
      simp only [hd]
      cases hdu : de.unit with
      | none => simp only [hdu]
      | some du => simp only [hdu, attack_error h]

/-- A session state justifying C1's witness: the deployment with the
first unit's attacks spent and a queued combat against entity 2. -/
def noAttackState : GameState :=
  { initialState with
    state := .Attacking 0 2
    world :=
      [⟨0, some (Unit.new 20 5 2 1 3 5 5 0), some (Hexagon.new_axial 2 0),
          some 0⟩,
       ⟨2, some (Unit.new 20 5 2 1 3 5 5 1), some (Hexagon.new_axial (-2) 0),
          some 1⟩] }

theorem claim_C1_witness :
    (Unit.new 20 5 2 1 3 5 5 0).attack (Unit.new 20 5 2 1 3 5 5 1) =
      .error .NoAttacksLeft ∧
    process 1 noAttackState = .ok (set_state noAttackState .Waiting) :=
  ⟨(claim_C1 (Unit.new 20 5 2 1 3 5 5 0) (Unit.new 20 5 2 1 3 5 5 1)
      (by decide)).1,
   ((claim_C1 (Unit.new 20 5 2 1 3 5 5 0) (Unit.new 20 5 2 1 3 5 5 1)
      (by decide)).2 noAttackState 0 2 1 rfl (by decide)).1⟩

/-- C2: a successful `attack` returns the unclamped
`actual_damage = attacker.damage − defender.armor`, a defender differing
only by that integrity loss and an attacker differing only by
`mobility = 0` and one spent attack; this holds both for the snapshot's
`components/unit.rs` (`V1`, where every attack succeeds) and for the
canonical spec-modelled variant, and the Lean embedding is a pure
function of its inputs, as the Rust borrows-and-clones are. -/
theorem claim_C2 :
    (∀ (a d : V1.Unit) (r : V1.AttackResult), V1.Unit.attack a d = .ok r →
      r.actual_damage = a.damage - d.armor ∧
      r.defender =
        { d with integrity := d.integrity - (a.damage - d.armor) } ∧
      r.attacker =
        { a with
          mobility := 0
          remaining_attacks := a.remaining_attacks - 1 }) ∧
    (∀ (a d : Unit) (r : AttackResult), Unit.attack a d = .ok r →
      r.actual_damage = a.damage - d.armor ∧
      r.defender =
        { d with integrity := d.integrity - (a.damage - d.armor) } ∧
      r.attacker =
        { a with
          mobility := 0
          remaining_attacks := a.remaining_attacks - 1 }) := by
  constructor
  · intro a d r h
    unfold V1.Unit.attack at h
    simp only [Except.ok.injEq] at h
    rw [← h]
    exact ⟨rfl, rfl, rfl⟩
  · intro a d r h
    obtain ⟨_, h1, h2, h3⟩ := attack_ok h
    exact ⟨h1, h3, h2⟩

/-- The canonical attack result for the spec's end-to-end scenario A
(attacker damage 4 and one attack, defender integrity 5 and armor 1). -/
def scenarioAResult : AttackResult :=
  ⟨3, Unit.new 10 4 1 1 0 0 2 0, Unit.new 2 0 1 1 1 2 2 1⟩

theorem claim_C2_witness :
    (scenarioAResult.actual_damage =
      (Unit.new 10 4 1 1 0 2 2 1).damage -
        (Unit.new 5 0 1 1 1 2 2 1).armor) ∧
    (scenarioAResult.defender =
      { Unit.new 5 0 1 1 1 2 2 1 with
        integrity := (Unit.new 5 0 1 1 1 2 2 1).integrity -
          ((Unit.new 10 4 1 1 0 2 2 1).damage -
            (Unit.new 5 0 1 1 1 2 2 1).armor) }) ∧
    (scenarioAResult.attacker =
      { Unit.new 10 4 1 1 0 2 2 1 with
        mobility := 0
        remaining_attacks :=
          (Unit.new 10 4 1 1 0 2 2 1).remaining_attacks - 1 }) :=
  claim_C2.2 (Unit.new 10 4 1 1 0 2 2 1) (Unit.new 5 0 1 1 1 2 2 1)
    scenarioAResult rfl

/-- C3: in every session state reachable from the initial deployment by
frame ticks, clicks, hovers, cancels and round rollovers, every unit in
the world has `remaining_attacks ≥ 0`. -/
theorem claim_C3 {s : GameState} (h : Reachable s) :
    ∀ x ∈ s.world, ∀ u, x.unit = some u → 0 ≤ u.remaining_attacks :=
  reachable_attacksNonneg h

theorem claim_C3_witness :
    0 ≤ (Unit.new 20 5 2 1 3 5 5 1).remaining_attacks :=
  claim_C3 Reachable.init
    ⟨0, some (Unit.new 20 5 2 1 3 5 5 1), some (Hexagon.new_axial 2 0),
      some 0⟩
    (by decide) (Unit.new 20 5 2 1 3 5 5 1) rfl

theorem getUnit_eq {w : World} {e : Nat} {x : EntityRec}
    (he : w.entry e = some x) : w.getUnit e = x.unit := by
  unfold World.getUnit
  rw [he]
  rfl

theorem getUnit_none {w : World} {e : Nat}
    (he : w.entry e = none) : w.getUnit e = none := by
  unfold World.getUnit
  rw [he]
  rfl

theorem id_addUnit (x : EntityRec) (e : Nat) (u : Unit) :
    (if x.id = e then { x with unit := some u } else x).id = x.id := by
  split <;> rfl

theorem addUnit_contains (w : World) (e d : Nat) (u : Unit) :
    (w.addUnit e u).contains d = w.contains d := by
  unfold World.addUnit World.contains
  induction w with
  | nil => rfl
  | cons y ys ih =>
    simp only [List.map_cons, List.any_cons, ih]
    by_cases hye : y.id = e <;> simp [hye]

theorem contains_of_entry {w : World} {e : Nat} {x : EntityRec}
    (he : w.entry e = some x) : w.contains e = true := by
  unfold World.entry at he
  unfold World.contains
  rw [List.any_eq_true]
  have hp := List.find?_some (p := fun y : EntityRec => decide (y.id = e))
    he
  exact ⟨x, List.mem_of_find?_eq_some he, hp⟩

theorem entry_isSome_of_contains {w : World} {e : Nat}
    (h : w.contains e = true) : ∃ x, w.entry e = some x := by
  unfold World.contains at h
  rw [List.any_eq_true] at h
  obtain ⟨x, hx, hpx⟩ := h
  unfold World.entry
  cases hf : List.find? (fun x => decide (x.id = e)) w with
  | some y => exact ⟨y, rfl⟩
  | none =>
    rw [List.find?_eq_none] at hf
    exact absurd hpx (by simpa using hf x hx)

theorem remove_contains_self (w : World) (e : Nat) :
    (w.remove e).contains e = false := by
  unfold World.remove World.contains
  rw [Bool.eq_false_iff]
  intro hc
  rw [List.any_eq_true] at hc
  obtain ⟨x, hx, hpx⟩ := hc
  have := List.of_mem_filter hx
  simp only [ne_eq, decide_not, Bool.not_eq_true', decide_eq_false_iff_not]
    at this
  simp only [decide_eq_true_eq] at hpx
  exact this hpx

/-- The commit step removes the defender exactly when the resulting
integrity is non-positive (given the defender existed when the combat was
resolved). -/
theorem handle_attack_result_contains {w : World} {a d : Nat}
    {dx : EntityRec} {r : AttackResult} (hd : w.entry d = some dx) :
    ((handle_attack_result w a d r).contains d = true ↔
      0 < r.defender.integrity) := by
  have hc : w.contains d = true := contains_of_entry hd
  unfold handle_attack_result
  cases ha : w.entry a with
  | none =>
    simp only [hd]
    split
    · rename_i hint
      rw [remove_contains_self]
      constructor
      · intro hfalse; cases hfalse
      · intro hpos; omega
    · rename_i hint
      rw [addUnit_contains, hc]
      constructor
      · intro _; omega
      · intro _; rfl
  | some ax =>
    obtain ⟨y, hy⟩ := entry_isSome_of_contains
      (w := w.addUnit a r.attacker) (e := d)
      (by rw [addUnit_contains]; exact hc)
    simp only [hy]
    split
    · rename_i hint
      rw [remove_contains_self]
      constructor
      · intro hfalse; cases hfalse
      · intro hpos; omega
    · rename_i hint
      rw [addUnit_contains, addUnit_contains, hc]
      constructor
      · intro _; omega
      · intro _; rfl

/-- C5: a tick in state `Attacking(a, d)` never panics and always ends in
`Waiting`; when both entities still carry units the attack result is
committed (the defender entity surviving exactly when its resulting
integrity is positive), and on a stale entity, missing unit component or
`NoAttacksLeft` failure the world is left unchanged. -/
theorem claim_C5 (s : GameState) (a d : Nat) (delta : ℚ)
    (hstate : s.state = .Attacking a d) :
    ∃ s', process delta s = .ok s' ∧ s'.state = .Waiting ∧
      (∀ au du r, s.world.getUnit a = some au →
        s.world.getUnit d = some du → au.attack du = .ok r →
        s'.world = handle_attack_result s.world a d r ∧
        (s'.world.contains d = true ↔ 0 < r.defender.integrity)) ∧
      ((s.world.getUnit a = none ∨ s.world.getUnit d = none ∨
        (∃ au du, s.world.getUnit a = some au ∧
          s.world.getUnit d = some du ∧
          au.attack du = .error .NoAttacksLeft)) →
        s'.world = s.world) := by
  cases he : s.world.entry a with
  | none =>
    have heq : process delta s = .ok (set_state s .Waiting) := by
      unfold process
      simp only [hstate, he]
    refine ⟨_, heq, rfl, ?_, fun _ => rfl⟩
    intro au du r hau _ _
    rw [getUnit_none he] at hau
    exact Option.noConfusion hau
  | some ae =>
    cases hau0 : ae.unit with
    | none =>
      have heq : process delta s = .ok (set_state s .Waiting) := by
        unfold process
        simp only [hstate, he, hau0]
      refine ⟨_, heq, rfl, ?_, fun _ => rfl⟩
      intro au du r hau _ _
      rw [getUnit_eq he, hau0] at hau
      exact Option.noConfusion hau
    | some au0 =>
      cases hd : s.world.entry d with
      | none =>
        have heq : process delta s = .ok (set_state s .Waiting) := by
          unfold process
          simp only [hstate, he, hau0, hd]
        refine ⟨_, heq, rfl, ?_, fun _ => rfl⟩
        intro au du r _ hdu _
        rw [getUnit_none hd] at hdu
        exact Option.noConfusion hdu
      | some de =>
        cases hdu0 : de.unit with
        | none =>
          have heq : process delta s = .ok (set_state s .Waiting) := by
            unfold process
            simp only [hstate, he, hau0, hd, hdu0]
          refine ⟨_, heq, rfl, ?_, fun _ => rfl⟩
          intro au du r _ hdu _
          rw [getUnit_eq hd, hdu0] at hdu
          exact Option.noConfusion hdu
        | some du0 =>
          cases hr0 : au0.attack du0 with
          | error err =>
            have heq : process delta s = .ok (set_state s .Waiting) := by
              unfold process
              simp only [hstate, he, hau0, hd, hdu0, hr0]
            refine ⟨_, heq, rfl, ?_, fun _ => rfl⟩
            intro au du r hau hdu hr
            rw [getUnit_eq he, hau0] at hau
            rw [getUnit_eq hd, hdu0] at hdu
            injection hau with hau
            injection hdu with hdu
            rw [← hau, ← hdu, hr0] at hr
            exact Except.noConfusion hr
          | ok r0 =>
            have heq : process delta s = .ok (set_state
                { s with world := handle_attack_result s.world a d r0 }
                .Waiting) := by
              unfold process
              simp only [hstate, he, hau0, hd, hdu0, hr0]
            refine ⟨_, heq, rfl, ?_, ?_⟩
            · intro au du r hau hdu hr
              rw [getUnit_eq he, hau0] at hau
              rw [getUnit_eq hd, hdu0] at hdu
              injection hau with hau
              injection hdu with hdu
              rw [← hau, ← hdu, hr0] at hr
              injection hr with hr
              rw [← hr]
              exact ⟨rfl, handle_attack_result_contains hd⟩
            · intro hfail
              rcases hfail with hf | hf | ⟨au, du, hau, hdu, herr⟩
              · rw [getUnit_eq he, hau0] at hf
                exact Option.noConfusion hf
              · rw [getUnit_eq hd, hdu0] at hf
                exact Option.noConfusion hf
              · rw [getUnit_eq he, hau0] at hau
                rw [getUnit_eq hd, hdu0] at hdu
                injection hau with hau
                injection hdu with hdu
                rw [← hau, ← hdu, hr0] at herr
                exact Except.noConfusion herr

/-- The initial deployment with a combat of unit 0 against unit 2 queued,
for C5's witness. -/
def attackingState : GameState :=
  { initialState with state := .Attacking 0 2 }

theorem claim_C5_witness :
    ∃ s', process 1 attackingState = .ok s' ∧ s'.state = .Waiting ∧
      (∀ au du r, attackingState.world.getUnit 0 = some au →
        attackingState.world.getUnit 2 = some du → au.attack du = .ok r →
        s'.world = handle_attack_result attackingState.world 0 2 r ∧
        (s'.world.contains 2 = true ↔ 0 < r.defender.integrity)) ∧
      ((attackingState.world.getUnit 0 = none ∨
        attackingState.world.getUnit 2 = none ∨
        (∃ au du, attackingState.world.getUnit 0 = some au ∧
          attackingState.world.getUnit 2 = some du ∧
          au.attack du = .error .NoAttacksLeft)) →
        s'.world = attackingState.world) :=
  claim_C5 attackingState 0 2 1 rfl

/-- C6: after `on_new_round` every unit in the world has
`remaining_attacks = 1` and `remaining_range = mobility`, the current
player (when set and within the roster) advances exactly one step modulo
the player count, and the machine is forced to `Waiting`. -/
theorem claim_C6 (s : GameState) (p : Nat) (hp : s.current_player = some p)
    (hlt : p < s.players.length) :
    (∀ x ∈ (on_new_round s).world, ∀ u, x.unit = some u →
      u.remaining_attacks = 1 ∧ u.remaining_range = u.mobility) ∧
    (on_new_round s).current_player = some ((p + 1) % s.players.length) ∧
    (on_new_round s).state = .Waiting := by
  refine ⟨?_, ?_, rfl⟩
  · intro x hx u hu
    unfold on_new_round at hx
    simp only [set_state] at hx
    obtain ⟨y, _, hxy⟩ := List.mem_map.mp hx
    cases hy : y.unit with
    | none =>
      rw [hy] at hxy
      rw [← hxy, hy] at hu
      cases hu
    | some u0 =>
      rw [hy] at hxy
      rw [← hxy] at hu
      simp only [Option.some.injEq] at hu
      rw [← hu]
      exact ⟨rfl, rfl⟩
  · unfold on_new_round
    simp only [set_state, hp]
    congr 1
    by_cases hc : p + 1 ≥ s.players.length
    · rw [if_pos hc]
      have hpl : p + 1 = s.players.length := by omega
      rw [hpl, Nat.mod_self]
    · rw [if_neg hc]
      rw [Nat.mod_eq_of_lt (by omega)]

/-- A deployment-time instantiation of C6: player 0 of two hands the turn
to player 1, and the first unit comes out reset. -/
theorem claim_C6_witness :
    (∀ x ∈ (on_new_round initialState).world, ∀ u, x.unit = some u →
      u.remaining_attacks = 1 ∧ u.remaining_range = u.mobility) ∧
    (on_new_round initialState).current_player =
      some ((0 + 1) % initialState.players.length) ∧
    (on_new_round initialState).state = .Waiting :=
  claim_C6 initialState 0 rfl (by decide)

/-- The spec's scenario D: a single unit at the origin with
`remaining_range = 2` and a queued three-step path, mid-`Moving`. -/
def movingState : GameState :=
  { world := [⟨0, some (Unit.new 10 0 0 0 0 5 2 1),
      some (Hexagon.new_axial 0 0), some 0⟩]
    state := .Moving 0
      [Hexagon.new_axial 0 1, Hexagon.new_axial 0 2, Hexagon.new_axial 0 3]
      0
    current_player := some 0
    players := [Player.new "Player 1", Player.new "Player 2"]
    current_path := []
    redraw_grid := false }

/-- Where scenario D must end: two steps taken (position `(0, 2)`, range
spent), the third step never attempted, machine back at `Selected`. -/
def movingHalted : GameState :=
  { world := [⟨0, some (Unit.new 10 0 0 0 0 5 0 1),
      some (Hexagon.new_axial 0 2), some 0⟩]
    state := .Selected 0
    current_player := some 0
    players := [Player.new "Player 1", Player.new "Player 2"]
    current_path := []
    redraw_grid := true }

/-- C7: scenario D concretely — after a frame worth at least three
movement ticks, the range-exhausted unit stops after two steps at
`Selected` — and the abort cases of the movement loop: a missing entity
or missing unit component aborts to `Waiting`; exhausted range, an
unexpectedly empty path, or a non-adjacent next cell halt at
`Selected`. -/
theorem claim_C7 :
    (process (35 / 100) movingState = .ok movingHalted) ∧
    (∀ (s : GameState) (e : Nat) (path : List Hexagon) (t delta : ℚ),
      s.state = .Moving e path t → t + delta > SECONDS_PER_MOVEMENT →
      s.world.entry e = none →
      process delta s = .ok (set_state s .Waiting)) ∧
    (∀ (s : GameState) (e : Nat) (path : List Hexagon) (t delta : ℚ)
      (x : EntityRec),
      s.state = .Moving e path t → t + delta > SECONDS_PER_MOVEMENT →
      s.world.entry e = some x → x.unit = none →
      process delta s = .ok (set_state s .Waiting)) ∧
    (∀ (s : GameState) (e : Nat) (path : List Hexagon) (t delta : ℚ)
      (x : EntityRec) (u : Unit),
      s.state = .Moving e path t → t + delta > SECONDS_PER_MOVEMENT →
      s.world.entry e = some x → x.unit = some u →
      u.remaining_range ≤ 0 →
      process delta s = .ok (set_state s (.Selected e))) ∧
    (∀ (s : GameState) (e : Nat) (t delta : ℚ) (x : EntityRec) (u : Unit)
      (hx : Hexagon),
      s.state = .Moving e [] t → t + delta > SECONDS_PER_MOVEMENT →
      s.world.entry e = some x → x.unit = some u →
      ¬ u.remaining_range ≤ 0 → x.hexagon = some hx →
      process delta s = .ok (set_state s (.Selected e))) ∧
    (∀ (s : GameState) (e : Nat) (next : Hexagon) (rest : List Hexagon)
      (t delta : ℚ) (x : EntityRec) (u : Unit) (hx : Hexagon),
      s.state = .Moving e (next :: rest) t →
      t + delta > SECONDS_PER_MOVEMENT →
      s.world.entry e = some x → x.unit = some u →
      ¬ u.remaining_range ≤ 0 → x.hexagon = some hx →
      hx.is_neighbour next = false →
      process delta s = .ok (set_state s (.Selected e))) := by
  refine ⟨?_, ?_, ?_, ?_, ?_, ?_⟩
  · norm_num [process, movingLoop, move_entity_to_hexagon, World.entry,
      World.addUnit, World.addHexagon, movingState, movingHalted,
      SECONDS_PER_MOVEMENT, Hexagon.is_neighbour, Hexagon.distance_to,
      Unit.is_in_movement_range, Unit.new, Hexagon.new_axial, set_state,
      List.find?]
  · intro s e path t delta hstate htp he
    unfold process
    simp only [hstate]
    rw [movingLoop, if_pos htp]
    simp only [he]
  · intro s e path t delta x hstate htp he hu
    unfold process
    simp only [hstate]
    rw [movingLoop, if_pos htp]
    simp only [he, hu]
  · intro s e path t delta x u hstate htp he hu hrr
    unfold process
    simp only [hstate]
    rw [movingLoop, if_pos htp]
    simp only [he, hu]
    rw [if_pos hrr]
  · intro s e t delta x u hx hstate htp he hu hrr hh
    unfold process
    simp only [hstate]
    rw [movingLoop, if_pos htp]
    simp only [he, hu]
    rw [if_neg hrr]
    simp only [hh]
  · intro s e next rest t delta x u hx hstate htp he hu hrr hh hnb
    unfold process
    simp only [hstate]
    rw [movingLoop, if_pos htp]
    simp only [he, hu]
    rw [if_neg hrr]
    simp only [hh, hnb]
    rfl

theorem claim_C7_witness :
    process 1 { initialState with state := .Moving 99 [] 0 } =
      .ok (set_state { initialState with state := .Moving 99 [] 0 }
        .Waiting) :=
  claim_C7.2.1 { initialState with state := .Moving 99 [] 0 } 99 [] 0 1
    rfl (by norm_num [SECONDS_PER_MOVEMENT]) (by decide)

/-- A session hovering while an enemy unit is selected: entity 0 belongs
to player 1 but player 0 is to move, and a stale hover path is still
displayed. -/
def hoverBadState : GameState :=
  { world := [⟨0, some (Unit.new 1 1 1 1 1 1 1 1),
      some (Hexagon.new_axial 0 0), some 1⟩]
    state := .Selected 0
    current_player := some 0
    players := [Player.new "Player 1", Player.new "Player 2"]
    current_path := [Hexagon.new_axial 9 9]
    redraw_grid := false }

/-- C8 as stated fails: in `Selected` state with the selected unit owned
by the other player, `hex_mouse_entered` returns without touching the
hover path, so the hover path is not recomputed via the pathfinder. -/
theorem claim_C8_counterexample :
    hex_mouse_entered 1 1 hoverBadState = hoverBadState ∧
    hoverBadState.current_path ≠
      find_path (Hexagon.new_axial 0 0) (Hexagon.new_axial 1 1)
        hoverBadState.world := by
  constructor
  · rfl
  · decide

theorem clickLoop_not_selected {s : GameState} {ch : Hexagon} {vis : Bool}
    (h : ∀ e, s.state ≠ .Selected e) :
    ∀ (entities : List Nat) (acc : List State),
    ∃ res, clickLoop s ch vis entities acc = .ok res := by
  intro entities
  induction entities with
  | nil => exact fun acc => ⟨_, rfl⟩
  | cons e rest ih =>
    intro acc
    simp only [clickLoop]
    cases hst : s.state with
    | Selected sel => exact absurd hst (h sel)
    | Waiting => exact ih _
    | Moving e2 p t => exact ih _
    | Attacking a d => exact ih _

theorem hex_left_clicked_ok_of_not_selected {q r : Int} {vis : Bool}
    {s : GameState} (h : ∀ e, s.state ≠ .Selected e) :
    ∃ s', hex_left_clicked q r vis s = .ok s' := by
  unfold hex_left_clicked
  by_cases hemp : get_entities_at_hexagon (Hexagon.new_axial q r) s.world = []
  · simp only [hemp, if_true]
    cases hst : s.state with
    | Selected sel => exact absurd hst (h sel)
    | Waiting => exact ⟨_, rfl⟩
    | Moving e p t => exact ⟨_, rfl⟩
    | Attacking a d => exact ⟨_, rfl⟩
  · rw [if_neg hemp]
    obtain ⟨res, hres⟩ := clickLoop_not_selected h
      (get_entities_at_hexagon (Hexagon.new_axial q r) s.world) []
    rw [hres]
    cases res with
    | finished acc => exact ⟨_, rfl⟩
    | earlyReturn => exact ⟨_, rfl⟩

/-- C8 amended: hovering clears the path outside `Selected`; in
`Selected` it recomputes the path via the pathfinder when the selected
entity resolves, a current player is set, the unit is the current
player's and has a position — and in the remaining `Selected` error cases
it is the identity, leaving the hover path as it was; it never changes
the world (no unit field, no position), and `hex_mouse_exited` only
clears the path. -/
theorem claim_C8 :
    (∀ (q r : Int) (s : GameState), (∀ e, s.state ≠ .Selected e) →
      (hex_mouse_entered q r s).current_path = []) ∧
    (∀ (q r : Int) (s : GameState) (sel : Nat) (x : EntityRec)
      (cp sp : Nat) (hx : Hexagon),
      s.state = .Selected sel → s.world.entry sel = some x →
      s.current_player = some cp → x.player = some sp → cp = sp →
      x.hexagon = some hx →
      (hex_mouse_entered q r s).current_path =
        find_path hx (Hexagon.new_axial q r) s.world) ∧
    (∀ (q r : Int) (s : GameState) (sel : Nat),
      s.state = .Selected sel →
      hex_mouse_entered q r s = s ∨
      ∃ hx, s.world.getHexagon sel = some hx ∧
        hex_mouse_entered q r s =
          { s with current_path :=
              find_path hx (Hexagon.new_axial q r) s.world }) ∧
    (∀ (q r : Int) (s : GameState),
      (hex_mouse_entered q r s).world = s.world ∧
      (hex_mouse_exited s).world = s.world ∧
      (hex_mouse_exited s).current_path = []) := by
  refine ⟨?_, ?_, ?_, ?_⟩
  · intro q r s hns
    unfold hex_mouse_entered
    cases hst : s.state with
    | Selected sel => exact absurd hst (hns sel)
    | Waiting => rfl
    | Moving e p t => rfl
    | Attacking a d => rfl
  · intro q r s sel x cp sp hx hsel hentry hcp hpl hcps hhx
    unfold hex_mouse_entered
    simp only [hsel, hentry, hcp, hpl]
    have hne : ¬ cp ≠ sp := fun hne => hne hcps
    rw [if_neg hne]
    simp only [hhx]
  · intro q r s sel hsel
    cases hentry : s.world.entry sel with
    | none =>
      left
      unfold hex_mouse_entered
      simp only [hsel, hentry]
    | some x =>
      cases hcp : s.current_player with
      | none =>
        left
        unfold hex_mouse_entered
        simp only [hsel, hentry, hcp]
      | some cp =>
        cases hpl : x.player with
        | none =>
          left
          unfold hex_mouse_entered
          simp only [hsel, hentry, hcp, hpl]
        | some sp =>
          by_cases hne : cp ≠ sp
          · left
            unfold hex_mouse_entered
            simp only [hsel, hentry, hcp, hpl]
            rw [if_pos hne]
          · cases hhx : x.hexagon with
            | none =>
              left
              unfold hex_mouse_entered
              simp only [hsel, hentry, hcp, hpl]
              rw [if_neg hne]
              simp only [hhx]
            | some hx =>
              refine Or.inr ⟨hx, ?_, ?_⟩
              · unfold World.getHexagon
                rw [hentry]
                exact hhx
              · unfold hex_mouse_entered
                simp only [hsel, hentry, hcp, hpl]
                rw [if_neg hne]
                simp only [hhx]
  · intro q r s
    obtain ⟨cp, hcp⟩ := hex_mouse_entered_shape q r s
    rw [hcp]
    exact ⟨rfl, rfl, rfl⟩

theorem claim_C8_witness :
    (hex_mouse_entered 1 1
      { initialState with state := .Selected 0 }).current_path =
    find_path (Hexagon.new_axial 2 0) (Hexagon.new_axial 1 1)
      { initialState with state := .Selected 0 }.world :=
  claim_C8.2.1 1 1 { initialState with state := .Selected 0 } 0
    ⟨0, some (Unit.new 20 5 2 1 3 5 5 1), some (Hexagon.new_axial 2 0),
      some 0⟩
    0 0 (Hexagon.new_axial 2 0) rfl rfl rfl rfl rfl rfl

/-- C9: the session guard is a non-blocking `try_lock`: with the lock
contended it silently skips the update (no blocking, no retry, no error —
the state is returned untouched), and with the lock acquired it runs the
guarded body; so an invocation need not produce a state change. -/
theorem claim_C9 :
    ∀ (f : GameState → GameState) (s : GameState),
      with_game_state false f s = s ∧ with_game_state true f s = f s :=
  fun _ _ => ⟨rfl, rfl⟩

/-- C10: `set_state` always installs the new state with an empty hover
path and the redraw flag set, and every operation that changes the
machine state went through it — so immediately after any transition
(click, frame tick, cancel, round rollover) the hover path is empty and
the grid flagged; hover events never change the machine state. -/
theorem claim_C10 :
    (∀ (s : GameState) (st : State),
      (set_state s st).state = st ∧ (set_state s st).current_path = [] ∧
      (set_state s st).redraw_grid = true) ∧
    (∀ (delta : ℚ) (s s' : GameState), process delta s = .ok s' →
      s'.state ≠ s.state →
      s'.current_path = [] ∧ s'.redraw_grid = true) ∧
    (∀ (q r : Int) (vis : Bool) (s s' : GameState),
      hex_left_clicked q r vis s = .ok s' → s'.state ≠ s.state →
      s'.current_path = [] ∧ s'.redraw_grid = true) ∧
    (∀ s : GameState, (hex_right_clicked s).state = .Waiting ∧
      (hex_right_clicked s).current_path = [] ∧
      (hex_right_clicked s).redraw_grid = true) ∧
    (∀ s : GameState, (on_new_round s).current_path = [] ∧
      (on_new_round s).redraw_grid = true) ∧
    (∀ (q r : Int) (s : GameState),
      (hex_mouse_entered q r s).state = s.state ∧
      (hex_mouse_exited s).state = s.state) := by
  refine ⟨fun s st => ⟨rfl, rfl, rfl⟩, ?_, ?_, fun s => ⟨rfl, rfl, rfl⟩,
    fun s => ⟨rfl, rfl⟩, ?_⟩
  · intro delta s s' heq hne
    obtain ⟨s'', heq2, _, hshape⟩ := process_ok delta s
    rw [heq] at heq2
    injection heq2 with heq2
    subst heq2
    rcases hshape with hs | hs
    · exact absurd (by rw [hs]) hne
    · exact hs
  · intro q r vis s s' heq hne
    obtain ⟨_, hshape⟩ := hex_left_clicked_ok_shape heq
    rcases hshape with hs | hs
    · exact absurd (by rw [hs]) hne
    · exact hs
  · intro q r s
    obtain ⟨cp, hcp⟩ := hex_mouse_entered_shape q r s
    rw [hcp]
    exact ⟨rfl, rfl⟩

theorem claim_C10_witness :
    (set_state initialState (.Selected 0)).current_path = [] ∧
    (set_state initialState (.Selected 0)).redraw_grid = true :=
  claim_C10.2.2.1 2 0 false initialState
    (set_state initialState (.Selected 0)) rfl (by decide)

/-- A session whose active player was never set while a unit is
selected: the concrete input on which `hex_left_clicked` panics. -/
def clickPanicState : GameState :=
  { world := [⟨0, some (Unit.new 1 1 1 1 1 1 1 1),
      some (Hexagon.new_axial 0 0), some 0⟩]
    state := .Selected 0
    current_player := none
    players := []
    current_path := []
    redraw_grid := false }

/-- C4 as stated fails: a left click on an empty cell while a unit is
selected and no current player is set hits a `panic!`, aborting the
process instead of recovering to `Waiting`. -/
theorem claim_C4_counterexample :
    hex_left_clicked 5 5 false clickPanicState =
      .error "State has no active player." := by
  rfl

/-- C4 amended: the per-frame tick never aborts, and outside the
`Selected` state no left click aborts either; every left-click abort
(panic) can only arise while a unit is selected (missing current player,
missing player assignment, missing hexagon component, or a stale
selected entity), where the handler panics rather than recovering. -/
theorem claim_C4 :
    (∀ (delta : ℚ) (s : GameState), ∃ s', process delta s = .ok s') ∧
    (∀ (q r : Int) (vis : Bool) (s : GameState) (m : String),
      hex_left_clicked q r vis s = .error m →
      ∃ sel, s.state = .Selected sel) ∧
    (∀ (q r : Int) (vis : Bool) (s : GameState),
      (∀ e, s.state ≠ .Selected e) →
      ∃ s', hex_left_clicked q r vis s = .ok s') := by
  refine ⟨?_, ?_, fun q r vis s h => hex_left_clicked_ok_of_not_selected h⟩
  · intro delta s
    obtain ⟨s', hs', _⟩ := process_ok delta s
    exact ⟨s', hs'⟩
  · intro q r vis s m herr
    by_cases hsel : ∃ sel, s.state = .Selected sel
    · exact hsel
    · push_neg at hsel
      obtain ⟨s', hs'⟩ := hex_left_clicked_ok_of_not_selected hsel
      rw [herr] at hs'
      exact Except.noConfusion hs'

theorem claim_C4_witness :
    ∃ sel, clickPanicState.state = .Selected sel :=
  claim_C4.2.1 5 5 false clickPanicState "State has no active player." rfl

end Strategy
